import Mathlib

/-!
# Savign front-end controllers

A shallow embedding of the interactive behaviours of the Savign website
(`src/js/menu.js`, `src/js/scroll-reveal.js`, `src/js/touch-handler.js`,
`src/js/main.js`) together with the properties established about them.

Conventions of the embedding

* A DOM element is a node id (`Elem`).  `null` and `undefined` references are
  `none`.
* A JavaScript method that mutates `this` and the page becomes a function
  from the object and the page to an `Outcome`: the object and page as the
  call leaves them, whether a `TypeError` escaped the call, and whether
  `event.preventDefault()` was called.  Writes made before an exception is
  raised are kept, as in JavaScript.
* `element.focus()` makes the element `document.activeElement` when the element is
  focusable and changes nothing otherwise.
* An event reaches a handler only through a listener that `init()` registered.
* Timers are kept in an explicit queue and run on a virtual clock: a timer
  registered at time `t` with delay `d` runs at time `t + d`.
-/

namespace Savign

/-! ## Page model -/

/-- DOM nodes, by node id. -/
abbrev Elem := Nat

/-- The four listeners `MobileMenu.init` registers. -/
inductive Listener
  | toggleClick
  | documentKeydown
  | overlayClick
  | overlayKeydown
  deriving DecidableEq, Repr

/-- The part of the page the menu reads and writes. -/
structure Page where
  /-- Value of `getAttribute(name)` per element. -/
  attrs : Elem → String → Option String
  /-- Value of `document.body.style.overflow`. -/
  bodyOverflow : String
  /-- Value of `document.activeElement` (`none` is `null`). -/
  activeElement : Option Elem
  /-- Result of `menuOverlay.querySelectorAll('.menu-link')`, in document order. -/
  menuLinks : List Elem
  /-- Number of pending `setTimeout` callbacks scheduled by `open()`. -/
  pendingFocusTimers : Nat
  /-- Listeners the menu instance has registered so far (none before it is constructed). -/
  listeners : List Listener
  /-- Lines written with `console.warn` / `console.error`. -/
  console : List String
  /-- Whether an element can take focus (a link, a button, an element with `tabindex`). -/
  focusable : Elem → Bool

/-- The JavaScript call `element.setAttribute(name, value)`. -/
def Page.setAttribute (p : Page) (e : Elem) (name value : String) : Page :=
  { p with attrs := fun e' n' => if e' = e ∧ n' = name then some value else p.attrs e' n' }

/-- The JavaScript call `element.focus()`: it moves the focus to a focusable element and
does nothing on an element that cannot take focus. -/
def Page.focus (p : Page) (e : Elem) : Page :=
  if p.focusable e then { p with activeElement := some e } else p

/-- Fields of a `MobileMenu` instance; `none` is a property that was never assigned. -/
structure MobileMenu where
  toggleButton : Option Elem
  menuOverlay : Option Elem
  isOpen : Option Bool

/-- What a call leaves behind. -/
structure Outcome where
  menu : MobileMenu
  page : Page
  /-- A `TypeError` escaped the call. -/
  raised : Bool
  /-- The call ran `event.preventDefault()`. -/
  defaultPrevented : Bool

/-- JavaScript truthiness of the `isOpen` property (`undefined` is falsy). -/
def truthy : Option Bool → Bool
  | some true => true
  | _ => false

/-- A keyboard event: `event.key` and `event.shiftKey`. -/
structure KeyEvent where
  key : String
  shiftKey : Bool

/-- Indexing of a `NodeList`: out-of-range and negative indices give `undefined`. -/
def nodeAt (l : List Elem) (i : Int) : Option Elem :=
  if i < 0 then none else l[i.toNat]?

/-- Strict equality `document.activeElement === x` where the left side is an element
or `null` and the right side an element or `undefined`: `null === undefined` is false. -/
def strictEq : Option Elem → Option Elem → Bool
  | some a, some b => a == b
  | _, _ => false

/-! ## `menu.js` -/

namespace MobileMenu

/-- Method `init()`: registers the four listeners. -/
def init (m : MobileMenu) (p : Page) : Outcome :=
  match m.toggleButton, m.menuOverlay with
  | none, _ => ⟨m, p, true, false⟩
  | some _, none =>
    ⟨m, { p with listeners := p.listeners ++ [.toggleClick, .documentKeydown] }, true, false⟩
  | some _, some _ =>
    ⟨m, { p with listeners := p.listeners ++
        [.toggleClick, .documentKeydown, .overlayClick, .overlayKeydown] }, false, false⟩

/-- Constructor `new MobileMenu(toggleButton, menuOverlay)`. -/
def construct (toggleButton menuOverlay : Option Elem) (p : Page) : Outcome :=
  match toggleButton, menuOverlay with
  | some tb, some ov => init ⟨some tb, some ov, some false⟩ p
  | _, _ =>
    ⟨⟨none, none, none⟩,
      { p with console := p.console ++ ["MobileMenu: Required elements not found"] },
      false, false⟩

/-- Method `open()`. -/
def «open» (m : MobileMenu) (p : Page) : Outcome :=
  let m1 := { m with isOpen := some true }
  match m1.menuOverlay, m1.toggleButton with
  | none, _ => ⟨m1, p, true, false⟩
  | some ov, none => ⟨m1, p.setAttribute ov "aria-hidden" "false", true, false⟩
  | some ov, some tb =>
    let p1 := p.setAttribute ov "aria-hidden" "false"
    let p2 := p1.setAttribute tb "aria-expanded" "true"
    let p3 := p2.setAttribute tb "aria-label" "Close navigation menu"
    let p4 := { p3 with bodyOverflow := "hidden" }
    ⟨m1, { p4 with pendingFocusTimers := p4.pendingFocusTimers + 1 }, false, false⟩

/-- The callback `open()` hands to `setTimeout`. -/
def focusFirstLink (m : MobileMenu) (p : Page) : Outcome :=
  match m.menuOverlay with
  | none => ⟨m, p, true, false⟩
  | some _ =>
    match p.menuLinks.head? with
    | some firstLink => ⟨m, p.focus firstLink, false, false⟩
    | none => ⟨m, p, false, false⟩

/-- Method `close()`. -/
def close (m : MobileMenu) (p : Page) : Outcome :=
  let m1 := { m with isOpen := some false }
  match m1.menuOverlay, m1.toggleButton with
  | none, _ => ⟨m1, p, true, false⟩
  | some ov, none => ⟨m1, p.setAttribute ov "aria-hidden" "true", true, false⟩
  | some ov, some tb =>
    let p1 := p.setAttribute ov "aria-hidden" "true"
    let p2 := p1.setAttribute tb "aria-expanded" "false"
    let p3 := p2.setAttribute tb "aria-label" "Open navigation menu"
    let p4 := { p3 with bodyOverflow := "" }
    ⟨m1, p4.focus tb, false, false⟩

/-- Method `toggle()`. -/
def toggle (m : MobileMenu) (p : Page) : Outcome :=
  if truthy m.isOpen then close m p else «open» m p

/-- Method `handleKeyboard(event)`: the `try`/`catch` logs and swallows what `close()` raises. -/
def handleKeyboard (m : MobileMenu) (p : Page) (event : KeyEvent) : Outcome :=
  if event.key = "Escape" ∧ truthy m.isOpen = true then
    let r := close m p
    if r.raised then
      ⟨r.menu, { r.page with console := r.page.console ++ ["MobileMenu keyboard handler error:"] },
        false, false⟩
    else r
  else ⟨m, p, false, false⟩

/-- The delegated click listener on the overlay; the argument is
`e.target.classList.contains('menu-link')`. -/
def overlayClick (m : MobileMenu) (p : Page) (targetIsMenuLink : Bool) : Outcome :=
  if targetIsMenuLink then close m p else ⟨m, p, false, false⟩

/-- Method `handleFocusTrap(event)`. -/
def handleFocusTrap (m : MobileMenu) (p : Page) (event : KeyEvent) : Outcome :=
  if !truthy m.isOpen then ⟨m, p, false, false⟩
  else
    match m.menuOverlay with
    | none => ⟨m, p, true, false⟩
    | some _ =>
      let focusableElements := p.menuLinks
      let firstElement := nodeAt focusableElements 0
      let lastElement := nodeAt focusableElements ((focusableElements.length : Int) - 1)
      if event.key = "Tab" then
        if event.shiftKey then
          if strictEq p.activeElement firstElement then
            match lastElement with
            | none => ⟨m, p, true, true⟩
            | some l => ⟨m, p.focus l, false, true⟩
          else ⟨m, p, false, false⟩
        else
          if strictEq p.activeElement lastElement then
            match firstElement with
            | none => ⟨m, p, true, true⟩
            | some f => ⟨m, p.focus f, false, true⟩
          else ⟨m, p, false, false⟩
      else ⟨m, p, false, false⟩

end MobileMenu

/-- What can happen to a menu after construction. -/
inductive MenuEvent
  /-- A call of `open()`. -/
  | callOpen
  /-- A call of `close()`. -/
  | callClose
  /-- A call of `toggle()`. -/
  | callToggle
  /-- A click on the toggle button. -/
  | toggleButtonClick
  /-- A keydown of Escape; the flag says whether its target is inside the overlay. -/
  | escapeKeydown (insideOverlay : Bool)
  /-- A click on a `.menu-link` inside the overlay. -/
  | menuLinkClick
  /-- One pending focus timer of `open()` runs. -/
  | focusTimerFires
  deriving DecidableEq, Repr

/-- Delivery of an Escape keydown.  When the target is inside the overlay and the overlay
has its `keydown` listener, that listener (`handleFocusTrap`) runs first; then the
document's `keydown` listener (`handleKeyboard`) runs if it is registered. -/
def keydownEscape (m : MobileMenu) (p : Page) (insideOverlay : Bool) : Outcome :=
  let r :=
    if insideOverlay = true ∧ Listener.overlayKeydown ∈ p.listeners then
      m.handleFocusTrap p ⟨"Escape", false⟩
    else ⟨m, p, false, false⟩
  if Listener.documentKeydown ∈ r.page.listeners then
    r.menu.handleKeyboard r.page ⟨"Escape", false⟩
  else ⟨r.menu, r.page, false, false⟩

/-- What an event runs.  A method call runs the method; a DOM event runs a handler only
if `init()` registered the listener for it (each instance registers each listener at
most once, from its constructor), and is lost otherwise. -/
def dispatch (m : MobileMenu) (p : Page) : MenuEvent → Outcome
  | .callOpen => m.open p
  | .callClose => m.close p
  | .callToggle => m.toggle p
  | .toggleButtonClick =>
    if Listener.toggleClick ∈ p.listeners then m.toggle p else ⟨m, p, false, false⟩
  | .escapeKeydown insideOverlay => keydownEscape m p insideOverlay
  | .menuLinkClick =>
    if Listener.overlayClick ∈ p.listeners then m.overlayClick p true else ⟨m, p, false, false⟩
  | .focusTimerFires =>
    if p.pendingFocusTimers = 0 then ⟨m, p, false, false⟩
    else m.focusFirstLink { p with pendingFocusTimers := p.pendingFocusTimers - 1 }

/-- State of the menu and the page after one event. -/
def step (s : MobileMenu × Page) (e : MenuEvent) : MobileMenu × Page :=
  ((dispatch s.1 s.2 e).menu, (dispatch s.1 s.2 e).page)

/-- State after a sequence of events, oldest first. -/
def runEvents (s : MobileMenu × Page) (evs : List MenuEvent) : MobileMenu × Page :=
  evs.foldl step s

/-- State right after `new MobileMenu(toggleButton, menuOverlay)` on page `p`. -/
def fresh (toggleButton menuOverlay : Option Elem) (p : Page) : MobileMenu × Page :=
  ((MobileMenu.construct toggleButton menuOverlay p).menu,
   (MobileMenu.construct toggleButton menuOverlay p).page)

/-- The overlay's `aria-hidden` is `'false'` and the body scroll is locked. -/
def shownAndLocked (ov : Elem) (p : Page) : Prop :=
  p.attrs ov "aria-hidden" = some "false" ∧ p.bodyOverflow = "hidden"

instance (ov : Elem) (p : Page) : Decidable (shownAndLocked ov p) := by
  unfold shownAndLocked; infer_instance

/-- A page with no attributes set, nothing focused and `links` as menu links. -/
def blankPage (links : List Elem) : Page :=
  ⟨fun _ _ => none, "", none, links, 0, [], [], fun _ => true⟩

/-- A page whose overlay (node 2) is already shown and whose body scroll is already
locked in the markup. -/
def preOpenedPage : Page :=
  ⟨fun e n => if e = 2 ∧ n = "aria-hidden" then some "false" else none, "hidden", none, [], 0,
    [], [], fun _ => true⟩

/-! ## The two-state machine of the specification -/

/-- The two states of the specification's machine. -/
inductive MenuPhase
  | Closed
  | Open
  deriving DecidableEq, Repr

/-- Transitions as the specification words them: Closed to Open via `open()` and
`toggle()`; Open to Closed via `close()`, `toggle()`, Escape and link click; nothing
else changes the state.  A click on the toggle button is a `toggle()`. -/
def specStep : MenuPhase → MenuEvent → MenuPhase
  | .Closed, .callOpen => .Open
  | .Closed, .callToggle => .Open
  | .Closed, .toggleButtonClick => .Open
  | .Open, .callClose => .Closed
  | .Open, .callToggle => .Closed
  | .Open, .toggleButtonClick => .Closed
  | .Open, .escapeKeydown _ => .Closed
  | .Open, .menuLinkClick => .Closed
  | s, _ => s

/-- The state of the machine an instance is in. -/
def phase (m : MobileMenu) : MenuPhase :=
  if truthy m.isOpen then .Open else .Closed

/-- Attributes and scroll lock as `close()` writes them. -/
def ClosedConfig (tb ov : Elem) (p : Page) : Prop :=
  p.attrs ov "aria-hidden" = some "true" ∧ p.attrs tb "aria-expanded" = some "false" ∧
  p.attrs tb "aria-label" = some "Open navigation menu" ∧ p.bodyOverflow = ""

/-! ## Menu: invariants (definitions) -/

/-- The four listeners of `init()` are registered on the page. -/
def Listening (p : Page) : Prop :=
  Listener.toggleClick ∈ p.listeners ∧ Listener.documentKeydown ∈ p.listeners ∧
  Listener.overlayClick ∈ p.listeners ∧ Listener.overlayKeydown ∈ p.listeners

/-- The instance holds both element references and its listeners are registered. -/
def Wired (tb ov : Elem) (s : MobileMenu × Page) : Prop :=
  s.1.toggleButton = some tb ∧ s.1.menuOverlay = some ov ∧ Listening s.2

/-- Page configuration written by `open()`. -/
def OpenConfig (tb ov : Elem) (p : Page) : Prop :=
  p.attrs ov "aria-hidden" = some "false" ∧ p.attrs tb "aria-expanded" = some "true" ∧
  p.attrs tb "aria-label" = some "Close navigation menu" ∧ p.bodyOverflow = "hidden"

/-- The flag agrees with the overlay attribute and the scroll lock. -/
def InSync (ov : Elem) (s : MobileMenu × Page) : Prop :=
  s.1.isOpen = some true ↔ shownAndLocked ov s.2

/-- Events that write the flag together with the page on a wired menu: everything except
an Escape keydown and a focus timer. -/
def MenuEvent.writes : MenuEvent → Bool
  | .callOpen | .callClose | .callToggle | .toggleButtonClick | .menuLinkClick => true
  | .escapeKeydown _ | .focusTimerFires => false

/-- The flag being set implies the whole configuration `open()` writes. -/
def OpenInv (tb ov : Elem) (s : MobileMenu × Page) : Prop :=
  s.1.isOpen = some true → OpenConfig tb ov s.2

/-! ## `touch-handler.js` -/

/-- Closure variable of one element's listener in `preventDoubleTapZoom`. -/
structure TapState where
  lastTouchEnd : Int

namespace preventDoubleTapZoom

/-- State of a listener right after `preventDoubleTapZoom` wired it: `let lastTouchEnd = 0`. -/
def wired : TapState := ⟨0⟩

/-- The `touchend` listener; `now` is the reading of `Date.now()`.  Returns the closure
state after the event and whether `e.preventDefault()` was called. -/
def touchend (s : TapState) (now : Int) : TapState × Bool :=
  (⟨now⟩, decide (now - s.lastTouchEnd ≤ 300))

/-- Two consecutive `touchend` events on one element, at `t1` then `t2`, starting from
closure state `s`: whether each had its default cancelled. -/
def pair (s : TapState) (t1 t2 : Int) : Bool × Bool :=
  ((touchend s t1).2, (touchend (touchend s t1).1 t2).2)

end preventDoubleTapZoom

/-! ## `scroll-reveal.js` -/

/-- The `classList` of every element. -/
abbrev ClassLists := Elem → List String

/-- The call `classList.add(c)`: a token list holds a token at most once. -/
def classListAdd (cl : List String) (c : String) : List String :=
  if c ∈ cl then cl else cl ++ [c]

/-- The call `classList.remove(c)`. -/
def classListRemove (cl : List String) (c : String) : List String :=
  cl.filter (fun x => x != c)

/-- An `IntersectionObserverEntry`: its `target` and `isIntersecting`. -/
structure IntersectionEntry where
  target : Elem
  isIntersecting : Bool

namespace ScrollReveal

/-- Method `animateIn(element)`. -/
def animateIn (dom : ClassLists) (element : Elem) : ClassLists :=
  fun e => if e = element then classListAdd (dom e) "active" else dom e

/-- Method `animateOut(element)`. -/
def animateOut (dom : ClassLists) (element : Elem) : ClassLists :=
  fun e => if e = element then classListRemove (dom e) "active" else dom e

/-- Method `handleIntersection(entries)`. -/
def handleIntersection (dom : ClassLists) (entries : List IntersectionEntry) : ClassLists :=
  entries.foldl (fun d entry => if entry.isIntersecting then animateIn d entry.target else d) dom

end ScrollReveal

/-- A `classList` table in which nodes 1 and 2 carry `reveal` and node 2 is already active. -/
def sampleClasses : ClassLists :=
  fun e => if e = 1 then ["reveal"] else if e = 2 then ["reveal", "active"] else []

/-! ## `main.js`: smooth scrolling -/

/-- What the click handler reads from the document at click time. -/
structure Document where
  /-- Value of `document.getElementById(id)`, as the target's `offsetTop`. -/
  getElementById : String → Option Int
  /-- Value of `document.querySelector('.site-header')`, as the header's `offsetHeight`. -/
  siteHeader : Option Nat

/-- The argument of one `window.scrollTo` call. -/
structure ScrollCall where
  top : Int
  behavior : String
  deriving DecidableEq, Repr

/-- What one click did. -/
structure ClickResult where
  defaultPrevented : Bool
  scrollCalls : List ScrollCall
  deriving DecidableEq, Repr

/-- The expression `header?.offsetHeight || 0`: a missing header and a height of 0 both
give 0. -/
def headerHeightOrZero : Option Nat → Nat
  | some h => if h = 0 then 0 else h
  | none => 0

/-- The click listener `initializeSmoothScroll` puts on every `a[href^="#"]`; `href` is
the value of `link.getAttribute('href')` at click time. -/
def initializeSmoothScroll.click (doc : Document) (href : String) : ClickResult :=
  if href = "#" then ⟨true, []⟩
  else
    let targetId := href.drop 1
    match doc.getElementById targetId with
    | some offsetTop =>
      let headerHeight := headerHeightOrZero doc.siteHeader
      let targetPosition := offsetTop - (headerHeight : Int)
      ⟨true, [⟨targetPosition, "smooth"⟩]⟩
    | none => ⟨false, []⟩

/-- A document with one section, `section1` at offset 500, and a header 64 high. -/
def sampleDocument : Document :=
  ⟨fun id => if id = "section1" then some 500 else none, some 64⟩

/-! ## Timers on a virtual clock -/

/-- A pending `setTimeout`: its handle, the time it is due and what its callback captured. -/
structure Timer (κ : Type) where
  id : Nat
  due : Nat
  captured : κ

/-- The closure variables of a wrapper together with the host's timer queue. -/
structure Host (σ κ : Type) where
  vars : σ
  pending : List (Timer κ)
  nextId : Nat

/-- The call `setTimeout(callback, delay)` at time `now`; returns the handle as well. -/
def setTimeout {σ κ : Type} (h : Host σ κ) (now delay : Nat) (captured : κ) : Host σ κ × Nat :=
  ({ h with pending := h.pending ++ [⟨h.nextId, now + delay, captured⟩], nextId := h.nextId + 1 },
    h.nextId)

/-- The call `clearTimeout(handle)`; an `undefined` or stale handle clears nothing. -/
def clearTimeout {σ κ : Type} (h : Host σ κ) (handle : Option Nat) : Host σ κ :=
  match handle with
  | none => h
  | some i => { h with pending := h.pending.filter (fun t => t.id != i) }

/-- A timer is run before a call made at `now` when it is due earlier, and also when it is
due at `now` itself and timers go first at that instant. -/
def isDue {κ : Type} (now : Nat) (timersFirst : Bool) (t : Timer κ) : Bool :=
  decide (t.due < now) || (timersFirst && t.due == now)

/-- Insert a timer into a list ordered by due time, after the timers due no later. -/
def insertByDue {κ : Type} (t : Timer κ) : List (Timer κ) → List (Timer κ)
  | [] => [t]
  | u :: us => if u.due ≤ t.due then u :: insertByDue t us else t :: u :: us

/-- Timers ordered by due time; timers due together keep their registration order. -/
def sortByDue {κ : Type} (l : List (Timer κ)) : List (Timer κ) :=
  l.foldl (fun acc t => insertByDue t acc) []

/-- Run the timers that are due, earliest first, each only if it is still pending when its
turn comes.  No callback in this repository registers a timer, so the timers to run are
among those pending at the start. -/
def runTimers {σ κ : Type} (fire : Timer κ → Host σ κ → Host σ κ) (h : Host σ κ) (now : Nat)
    (timersFirst : Bool) : Host σ κ :=
  (sortByDue (h.pending.filter (isDue now timersFirst))).foldl
    (fun h t =>
      if h.pending.any (fun u => u.id == t.id) then
        fire t { h with pending := h.pending.filter (fun u => u.id != t.id) }
      else h) h

/-! ## `main.js`: `debounce` -/

/-- Closure variable `timeout` of a `debounce` wrapper, and the record of the runs of
`func`: the time of each run and the arguments it received. -/
structure DebounceVars (α : Type) where
  timeout : Option Nat
  runs : List (Nat × α)

namespace debounce

/-- State right after `debounce(func, wait)` returned. -/
def init {α : Type} : Host (DebounceVars α) α :=
  ⟨⟨none, []⟩, [], 0⟩

/-- The callback `later`, run by timer `t`, which captured the arguments of the call that
registered it. -/
def later {α : Type} (t : Timer α) (h : Host (DebounceVars α) α) : Host (DebounceVars α) α :=
  let h1 := clearTimeout h h.vars.timeout
  { h1 with vars := { h1.vars with runs := h1.vars.runs ++ [(t.due, t.captured)] } }

/-- The wrapper `executedFunction(...args)` called at time `now`. -/
def executedFunction {α : Type} (wait : Nat) (h : Host (DebounceVars α) α) (now : Nat)
    (args : α) : Host (DebounceVars α) α :=
  let h1 := clearTimeout h h.vars.timeout
  let r := setTimeout h1 now wait args
  { r.1 with vars := { r.1.vars with timeout := some r.2 } }

/-- State after the wrapper was called at the given times with the given arguments,
oldest call first; `timersFirst t` says whether a timer due at `t` runs before a call
made at `t`. -/
def afterCalls {α : Type} (wait : Nat) (timersFirst : Nat → Bool) (calls : List (Nat × α)) :
    Host (DebounceVars α) α :=
  calls.foldl (fun h c => executedFunction wait (runTimers later h c.1 (timersFirst c.1)) c.1 c.2)
    init

/-- Runs of `func` up to and including time `horizon`, no call being made after `calls`. -/
def runsUpTo {α : Type} (wait : Nat) (timersFirst : Nat → Bool) (calls : List (Nat × α))
    (horizon : Nat) : List (Nat × α) :=
  (runTimers later (afterCalls wait timersFirst calls) horizon true).vars.runs

end debounce

/-! ## `main.js`: `throttle` -/

/-- Closure variable `inThrottle` of a `throttle` wrapper (`none` is `undefined`), and the
times at which `func` ran. -/
structure ThrottleVars where
  inThrottle : Option Bool
  runs : List Nat

namespace throttle

/-- State right after `throttle(func, limit)` returned. -/
def init : Host ThrottleVars Unit :=
  ⟨⟨none, []⟩, [], 0⟩

/-- The timer callback `() => inThrottle = false`. -/
def reset (_t : Timer Unit) (h : Host ThrottleVars Unit) : Host ThrottleVars Unit :=
  { h with vars := { h.vars with inThrottle := some false } }

/-- The wrapper `executedFunction(...args)` called at time `now`. -/
def executedFunction (limit : Nat) (h : Host ThrottleVars Unit) (now : Nat) :
    Host ThrottleVars Unit :=
  if !truthy h.vars.inThrottle then
    let h1 := { h with vars := { h.vars with runs := h.vars.runs ++ [now] } }
    let h2 := { h1 with vars := { h1.vars with inThrottle := some true } }
    (setTimeout h2 now limit ()).1
  else h

/-- State after the wrapper was called at the given times, oldest call first;
`timersFirst t` says whether a timer due at `t` runs before a call made at `t`. -/
def afterCalls (limit : Nat) (timersFirst : Nat → Bool) (calls : List Nat) :
    Host ThrottleVars Unit :=
  calls.foldl (fun h t => executedFunction limit (runTimers reset h t (timersFirst t)) t) init

end throttle

/-- The call times 0, 10, 20, ..., 490. -/
def everyTenMs : List Nat :=
  (List.range 50).map (fun i => 10 * i)
/-- The calls are in time order and each comes less than `wait` after the one before. -/
def isBurst {α : Type} (wait : Nat) : List (Nat × α) → Bool
  | a :: b :: rest => decide (a.1 ≤ b.1) && decide (b.1 - a.1 < wait) && isBurst wait (b :: rest)
  | _ => true

/-- What holds after the calls at 0, 10, ..., 10 * k: the gate is closed, the last run `r`
is at most 100 ms old, and the runs so far are 100 to 110 ms apart. -/
def ThrottleInv (k : Nat) (h : Host ThrottleVars Unit) : Prop :=
  ∃ (id n r : Nat) (R : List Nat),
    h = ⟨⟨some true, R ++ [r]⟩, [⟨id, r + 100, ()⟩], n⟩ ∧
    r ≤ 10 * k ∧ 10 * k ≤ r + 100 ∧ 100 * R.length ≤ r ∧ r ≤ 110 * R.length ∧
    (R ++ [r]).head? = some 0 ∧ List.Chain' (fun a b => a + 100 ≤ b) (R ++ [r])

/-! ## Menu: basic facts -/

@[simp] theorem focus_attrs (p : Page) (e : Elem) : (p.focus e).attrs = p.attrs := by
  unfold Page.focus; split <;> rfl

@[simp] theorem focus_bodyOverflow (p : Page) (e : Elem) :
    (p.focus e).bodyOverflow = p.bodyOverflow := by
  unfold Page.focus; split <;> rfl

@[simp] theorem focus_listeners (p : Page) (e : Elem) : (p.focus e).listeners = p.listeners := by
  unfold Page.focus; split <;> rfl

@[simp] theorem focus_pendingFocusTimers (p : Page) (e : Elem) :
    (p.focus e).pendingFocusTimers = p.pendingFocusTimers := by
  unfold Page.focus; split <;> rfl

theorem focus_activeElement (p : Page) (e : Elem) :
    (p.focus e).activeElement = if p.focusable e then some e else p.activeElement := by
  unfold Page.focus; split <;> rfl

theorem handleFocusTrap_escape (m : MobileMenu) (p : Page) :
    (m.handleFocusTrap p ⟨"Escape", false⟩).menu = m ∧
    (m.handleFocusTrap p ⟨"Escape", false⟩).page = p := by
  simp only [MobileMenu.handleFocusTrap]
  repeat (first | split | exact ⟨rfl, rfl⟩ | simp_all)

theorem keydownEscape_eq (m : MobileMenu) (p : Page) (insideOverlay : Bool)
    (hl : Listening p) :
    keydownEscape m p insideOverlay = m.handleKeyboard p ⟨"Escape", false⟩ := by
  have hf := handleFocusTrap_escape m p
  simp only [keydownEscape]
  split
  · rw [hf.1, hf.2, if_pos hl.2.1]
  · rw [if_pos hl.2.1]

theorem dispatch_toggleButtonClick (m : MobileMenu) (p : Page) (hl : Listening p) :
    dispatch m p .toggleButtonClick = m.toggle p := by
  simp only [dispatch, if_pos hl.1]

theorem dispatch_escapeKeydown (m : MobileMenu) (p : Page) (insideOverlay : Bool)
    (hl : Listening p) :
    dispatch m p (.escapeKeydown insideOverlay) = m.handleKeyboard p ⟨"Escape", false⟩ := by
  simp only [dispatch, keydownEscape_eq m p insideOverlay hl]

theorem dispatch_menuLinkClick (m : MobileMenu) (p : Page) (hl : Listening p) :
    dispatch m p .menuLinkClick = m.close p := by
  simp only [dispatch, if_pos hl.2.2.1, MobileMenu.overlayClick, if_true]

theorem dispatch_focusTimer_menu (m : MobileMenu) (p : Page) :
    (dispatch m p .focusTimerFires).menu = m := by
  simp only [dispatch, MobileMenu.focusFirstLink]
  repeat (first | split | rfl)

theorem dispatch_focusTimer_page (m : MobileMenu) (p : Page) :
    (dispatch m p .focusTimerFires).page.attrs = p.attrs ∧
    (dispatch m p .focusTimerFires).page.bodyOverflow = p.bodyOverflow ∧
    (dispatch m p .focusTimerFires).page.listeners = p.listeners := by
  simp only [dispatch, MobileMenu.focusFirstLink]
  repeat (first | split | simp)

/-- On a wired menu every event other than a focus timer comes down to a call of
`open()`, of `close()`, or to nothing. -/
theorem dispatch_wired_cases (tb ov : Elem) (i : Option Bool) (p : Page) (hl : Listening p)
    (e : MenuEvent) (he : e ≠ .focusTimerFires) :
    dispatch ⟨some tb, some ov, i⟩ p e = MobileMenu.open ⟨some tb, some ov, i⟩ p ∨
    dispatch ⟨some tb, some ov, i⟩ p e = MobileMenu.close ⟨some tb, some ov, i⟩ p ∨
    (e.writes = false ∧ i ≠ some true ∧
      dispatch ⟨some tb, some ov, i⟩ p e = ⟨⟨some tb, some ov, i⟩, p, false, false⟩) := by
  cases e with
  | callOpen => exact Or.inl rfl
  | callClose => exact Or.inr (Or.inl rfl)
  | callToggle =>
    simp only [dispatch, MobileMenu.toggle]
    split
    · exact Or.inr (Or.inl rfl)
    · exact Or.inl rfl
  | toggleButtonClick =>
    rw [dispatch_toggleButtonClick _ _ hl]
    simp only [MobileMenu.toggle]
    split
    · exact Or.inr (Or.inl rfl)
    · exact Or.inl rfl
  | escapeKeydown b =>
    rw [dispatch_escapeKeydown _ _ _ hl]
    rcases i with _ | _ | _
    · exact Or.inr (Or.inr ⟨rfl, by simp, by simp [MobileMenu.handleKeyboard, truthy]⟩)
    · exact Or.inr (Or.inr ⟨rfl, by simp, by simp [MobileMenu.handleKeyboard, truthy]⟩)
    · exact Or.inr (Or.inl (by simp [MobileMenu.handleKeyboard, truthy, MobileMenu.close]))
  | menuLinkClick => exact Or.inr (Or.inl (dispatch_menuLinkClick _ _ hl))
  | focusTimerFires => exact absurd rfl he

theorem open_wired (tb ov : Elem) (i : Option Bool) (p : Page) :
    (MobileMenu.open ⟨some tb, some ov, i⟩ p).menu = ⟨some tb, some ov, some true⟩ ∧
    (MobileMenu.open ⟨some tb, some ov, i⟩ p).page.listeners = p.listeners ∧
    OpenConfig tb ov (MobileMenu.open ⟨some tb, some ov, i⟩ p).page := by
  simp [MobileMenu.open, OpenConfig, Page.setAttribute]

theorem close_wired (tb ov : Elem) (i : Option Bool) (p : Page) :
    (MobileMenu.close ⟨some tb, some ov, i⟩ p).menu = ⟨some tb, some ov, some false⟩ ∧
    (MobileMenu.close ⟨some tb, some ov, i⟩ p).page.listeners = p.listeners ∧
    ClosedConfig tb ov (MobileMenu.close ⟨some tb, some ov, i⟩ p).page := by
  simp [MobileMenu.close, ClosedConfig, Page.setAttribute]

theorem fresh_wired (tb ov : Elem) (p : Page) : Wired tb ov (fresh (some tb) (some ov) p) := by
  simp [Wired, Listening, fresh, MobileMenu.construct, MobileMenu.init]

theorem fresh_isOpen (tb ov : Elem) (p : Page) :
    (fresh (some tb) (some ov) p).1.isOpen = some false := by
  simp [fresh, MobileMenu.construct, MobileMenu.init]

theorem step_wired {tb ov : Elem} {s : MobileMenu × Page} (h : Wired tb ov s) (e : MenuEvent) :
    Wired tb ov (step s e) := by
  obtain ⟨⟨t, o, i⟩, p⟩ := s
  obtain ⟨h1, h2, hl⟩ := h
  simp only at h1 h2 hl
  subst h1 h2
  by_cases he : e = .focusTimerFires
  · subst he
    have hp := dispatch_focusTimer_page ⟨some tb, some ov, i⟩ p
    refine ⟨?_, ?_, ?_⟩
    · simp only [step, dispatch_focusTimer_menu]
    · simp only [step, dispatch_focusTimer_menu]
    · simp only [step, Listening, hp.2.2]; exact hl
  · rcases dispatch_wired_cases tb ov i p hl e he with h | h | ⟨_, _, h⟩
    · have ho := open_wired tb ov i p
      exact ⟨by simp only [step, h, ho.1], by simp only [step, h, ho.1],
        by simp only [step, h, Listening, ho.2.1]; exact hl⟩
    · have hc := close_wired tb ov i p
      exact ⟨by simp only [step, h, hc.1], by simp only [step, h, hc.1],
        by simp only [step, h, Listening, hc.2.1]; exact hl⟩
    · exact ⟨by simp only [step, h], by simp only [step, h], by simp only [step, h]; exact hl⟩

theorem runEvents_wired {tb ov : Elem} (evs : List MenuEvent) {s : MobileMenu × Page}
    (h : Wired tb ov s) : Wired tb ov (runEvents s evs) := by
  induction evs generalizing s with
  | nil => exact h
  | cons e es ih => exact ih (step_wired h e)

theorem openConfig_shown {tb ov : Elem} {p : Page} (h : OpenConfig tb ov p) :
    shownAndLocked ov p := ⟨h.1, h.2.2.2⟩

theorem closedConfig_not_shown {tb ov : Elem} {p : Page} (h : ClosedConfig tb ov p) :
    ¬ shownAndLocked ov p := by
  intro hc
  have h1 := h.1
  rw [hc.1] at h1
  simp at h1

theorem step_writes_inSync {tb ov : Elem} {s : MobileMenu × Page} (h : Wired tb ov s)
    (e : MenuEvent) (he : e.writes = true) : InSync ov (step s e) := by
  obtain ⟨⟨t, o, i⟩, p⟩ := s
  obtain ⟨h1, h2, hl⟩ := h
  simp only at h1 h2 hl
  subst h1 h2
  have hne : e ≠ .focusTimerFires := by
    intro hc; subst hc; simp [MenuEvent.writes] at he
  rcases dispatch_wired_cases tb ov i p hl e hne with h | h | ⟨hw, _, _⟩
  · have ho := open_wired tb ov i p
    simp only [InSync, step, h]; rw [ho.1]
    exact iff_of_true (by simp) (openConfig_shown ho.2.2)
  · have hc := close_wired tb ov i p
    simp only [InSync, step, h]; rw [hc.1]
    exact iff_of_false (by simp) (closedConfig_not_shown hc.2.2)
  · rw [hw] at he; simp at he

theorem step_inSync {tb ov : Elem} {s : MobileMenu × Page} (h : Wired tb ov s)
    (hs : InSync ov s) (e : MenuEvent) : InSync ov (step s e) := by
  by_cases he : e.writes = true
  · exact step_writes_inSync h e he
  · obtain ⟨⟨t, o, i⟩, p⟩ := s
    obtain ⟨h1, h2, hl⟩ := h
    simp only at h1 h2 hl
    subst h1 h2
    simp only [InSync, shownAndLocked] at hs
    by_cases hf : e = .focusTimerFires
    · subst hf
      have hp := dispatch_focusTimer_page ⟨some tb, some ov, i⟩ p
      simp only [InSync, shownAndLocked, step, dispatch_focusTimer_menu, hp.1, hp.2.1]
      exact hs
    · rcases dispatch_wired_cases tb ov i p hl e hf with h | h | ⟨_, _, h⟩
      · have ho := open_wired tb ov i p
        simp only [InSync, step, h]; rw [ho.1]
        exact iff_of_true (by simp) (openConfig_shown ho.2.2)
      · have hc := close_wired tb ov i p
        simp only [InSync, step, h]; rw [hc.1]
        exact iff_of_false (by simp) (closedConfig_not_shown hc.2.2)
      · simp only [InSync, shownAndLocked, step, h]
        exact hs

theorem runEvents_inSync {tb ov : Elem} (evs : List MenuEvent) {s : MobileMenu × Page}
    (h : Wired tb ov s) (hs : InSync ov s ∨ ∃ e ∈ evs, MenuEvent.writes e = true) :
    InSync ov (runEvents s evs) := by
  induction evs generalizing s with
  | nil =>
    rcases hs with hs | ⟨e, he, _⟩
    · exact hs
    · simp at he
  | cons e es ih =>
    refine ih (step_wired h e) ?_
    rcases hs with hs | ⟨e', he', hw⟩
    · exact Or.inl (step_inSync h hs e)
    · rcases List.mem_cons.mp he' with rfl | hmem
      · exact Or.inl (step_writes_inSync h _ hw)
      · exact Or.inr ⟨e', hmem, hw⟩

theorem fresh_page_attrs (tb ov : Elem) (p : Page) :
    (fresh (some tb) (some ov) p).2.attrs = p.attrs ∧
    (fresh (some tb) (some ov) p).2.bodyOverflow = p.bodyOverflow := by
  simp [fresh, MobileMenu.construct, MobileMenu.init]

theorem step_openInv {tb ov : Elem} {s : MobileMenu × Page} (h : Wired tb ov s)
    (hs : OpenInv tb ov s) (e : MenuEvent) : OpenInv tb ov (step s e) := by
  obtain ⟨⟨t, o, i⟩, p⟩ := s
  obtain ⟨h1, h2, hl⟩ := h
  simp only at h1 h2 hl
  subst h1 h2
  simp only [OpenInv, OpenConfig] at hs
  by_cases hf : e = .focusTimerFires
  · subst hf
    have hp := dispatch_focusTimer_page ⟨some tb, some ov, i⟩ p
    simp only [OpenInv, OpenConfig, step, dispatch_focusTimer_menu, hp.1, hp.2.1]
    exact hs
  · rcases dispatch_wired_cases tb ov i p hl e hf with h | h | ⟨_, _, h⟩
    · have ho := open_wired tb ov i p
      simp only [OpenInv, step, h]
      exact fun _ => ho.2.2
    · have hc := close_wired tb ov i p
      simp only [OpenInv, step, h, hc.1]
      intro hx
      simp at hx
    · simp only [OpenInv, OpenConfig, step, h]
      exact hs

theorem runEvents_openInv {tb ov : Elem} (evs : List MenuEvent) {s : MobileMenu × Page}
    (h : Wired tb ov s) (hs : OpenInv tb ov s) : OpenInv tb ov (runEvents s evs) := by
  induction evs generalizing s with
  | nil => exact hs
  | cons e es ih => exact ih (step_wired h e) (step_openInv h hs e)

/-! ## Menu: the flag, the overlay attribute and the scroll lock -/

/-- C1, as stated, fails right after construction: on a page whose markup already has
`aria-hidden="false"` on the overlay and `overflow: hidden` on the body, the constructor
sets `isOpen = false` and writes nothing to the page, so the flag is false while the
overlay is shown and the scroll is locked. -/
theorem menu_flag_out_of_sync_after_construction :
    ¬ ((runEvents (fresh (some 1) (some 2) preOpenedPage) []).1.isOpen = some true ↔
        shownAndLocked 2 (runEvents (fresh (some 1) (some 2) preOpenedPage) []).2) := by
  decide

/-- C1 (amended): for a menu constructed on a toggle button and an overlay, after any
finite sequence of `open()`, `close()`, `toggle()`, Escape keydown, menu-link click (and
toggle-button click and focus timer) events, `isOpen` is true iff the overlay's
`aria-hidden` is `'false'` and the body overflow is `'hidden'`, provided the page did not
start with both already set or at least one `open()`, `close()`, `toggle()` (called or
run by a click on the toggle button) or menu-link click is in the sequence. -/
theorem menu_flag_inSync_after_write (tb ov : Elem) (p : Page) (evs : List MenuEvent)
    (h : ¬ shownAndLocked ov p ∨ ∃ e ∈ evs, MenuEvent.writes e = true) :
    (runEvents (fresh (some tb) (some ov) p) evs).1.isOpen = some true ↔
      shownAndLocked ov (runEvents (fresh (some tb) (some ov) p) evs).2 := by
  refine runEvents_inSync evs (fresh_wired tb ov p) ?_
  rcases h with h | h
  · left
    have ha := fresh_page_attrs tb ov p
    simp only [InSync, shownAndLocked, fresh_isOpen, ha.1, ha.2]
    simpa [shownAndLocked] using h
  · exact Or.inr h

theorem menu_flag_inSync_after_write_witness :
    (¬ shownAndLocked 2 preOpenedPage ∨
        ∃ e ∈ [MenuEvent.callToggle], MenuEvent.writes e = true) ∧
      ((runEvents (fresh (some 1) (some 2) preOpenedPage) [.callToggle]).1.isOpen = some true ↔
        shownAndLocked 2 (runEvents (fresh (some 1) (some 2) preOpenedPage) [.callToggle]).2) :=
  ⟨Or.inr ⟨.callToggle, by simp, rfl⟩,
    menu_flag_inSync_after_write 1 2 preOpenedPage [.callToggle]
      (Or.inr ⟨.callToggle, by simp, rfl⟩)⟩

/-! ## Menu: `open()` on an open menu -/

/-- C2, as stated, fails: after `new MobileMenu(1, 2)` and one `open()` the menu is open
with one pending focus timer; a second `open()` leaves two. -/
theorem open_on_open_menu_schedules_again :
    (runEvents (fresh (some 1) (some 2) (blankPage [3])) [.callOpen]).1.isOpen = some true ∧
      (MobileMenu.open (runEvents (fresh (some 1) (some 2) (blankPage [3])) [.callOpen]).1
          (runEvents (fresh (some 1) (some 2) (blankPage [3])) [.callOpen]).2).page.pendingFocusTimers
        ≠ (runEvents (fresh (some 1) (some 2) (blankPage [3])) [.callOpen]).2.pendingFocusTimers := by
  decide

/-- C2 (amended): in every state reached from construction by the menu's events in which
`isOpen` is true, `open()` completes without raising, leaves the instance and the whole
page (so `isOpen`, `aria-hidden`, `aria-expanded`, `aria-label`, the body overflow and the
focus) unchanged, except that it schedules one more deferred focus move. -/
theorem open_on_open_menu (tb ov : Elem) (p : Page) (evs : List MenuEvent)
    (h : (runEvents (fresh (some tb) (some ov) p) evs).1.isOpen = some true) :
    MobileMenu.open (runEvents (fresh (some tb) (some ov) p) evs).1
        (runEvents (fresh (some tb) (some ov) p) evs).2 =
      ⟨(runEvents (fresh (some tb) (some ov) p) evs).1,
        { (runEvents (fresh (some tb) (some ov) p) evs).2 with
          pendingFocusTimers :=
            (runEvents (fresh (some tb) (some ov) p) evs).2.pendingFocusTimers + 1 },
        false, false⟩ := by
  have hw := runEvents_wired evs (fresh_wired tb ov p)
  have hi : OpenInv tb ov (fresh (some tb) (some ov) p) := by
    intro hc
    rw [fresh_isOpen] at hc
    cases hc
  have ho := runEvents_openInv evs (fresh_wired tb ov p) hi h
  generalize runEvents (fresh (some tb) (some ov) p) evs = s at h hw ho
  obtain ⟨⟨t, o, i⟩, q⟩ := s
  obtain ⟨h1, h2, _⟩ := hw
  simp only at h1 h2 h
  subst h1 h2 h
  obtain ⟨a1, a2, a3, a4⟩ := ho
  simp only at a1 a2 a3 a4
  simp only [MobileMenu.open, Page.setAttribute, Outcome.mk.injEq, true_and, and_true]
  have hattrs : (fun e' n' =>
      if e' = tb ∧ n' = "aria-label" then some "Close navigation menu"
      else if e' = tb ∧ n' = "aria-expanded" then some "true"
      else if e' = ov ∧ n' = "aria-hidden" then some "false" else q.attrs e' n') = q.attrs := by
    funext e' n'
    split
    · rename_i hc; rw [hc.1, hc.2, a3]
    · split
      · rename_i hc; rw [hc.1, hc.2, a2]
      · split
        · rename_i hc; rw [hc.1, hc.2, a1]
        · rfl
  rw [hattrs, a4]

theorem open_on_open_menu_witness :
    (runEvents (fresh (some 1) (some 2) (blankPage [3])) [.callOpen]).1.isOpen = some true ∧
      MobileMenu.open (runEvents (fresh (some 1) (some 2) (blankPage [3])) [.callOpen]).1
          (runEvents (fresh (some 1) (some 2) (blankPage [3])) [.callOpen]).2 =
        ⟨(runEvents (fresh (some 1) (some 2) (blankPage [3])) [.callOpen]).1,
          { (runEvents (fresh (some 1) (some 2) (blankPage [3])) [.callOpen]).2 with
            pendingFocusTimers :=
              (runEvents (fresh (some 1) (some 2) (blankPage [3])) [.callOpen]).2.pendingFocusTimers
                + 1 },
          false, false⟩ :=
  ⟨by decide, open_on_open_menu 1 2 (blankPage [3]) [.callOpen] (by decide)⟩

/-! ## Menu: construction without its elements -/

/-- C3, as stated, fails: on the object that `new MobileMenu(null, overlay)` leaves behind,
`open()` does not complete without raising and does not leave the object's state alone
(it writes `isOpen = true` before it raises). -/
theorem open_on_unwired_menu_raises :
    ¬ ((MobileMenu.open (fresh none (some 2) (blankPage [])).1
          (fresh none (some 2) (blankPage [])).2).raised = false ∧
       (MobileMenu.open (fresh none (some 2) (blankPage [])).1
          (fresh none (some 2) (blankPage [])).2).menu.isOpen =
        (fresh none (some 2) (blankPage [])).1.isOpen) := by
  decide

/-- C3 (amended): constructing with a null toggle button or a null overlay does not raise,
registers no listener, writes nothing to the page but a console warning, and leaves
`toggleButton`, `menuOverlay` and `isOpen` unassigned.  On the resulting object
`handleKeyboard` and `handleFocusTrap` do nothing for any event.  The methods are not
guarded: `open()` writes `isOpen = true` and then raises, `close()` writes `isOpen = false`
and then raises, `toggle()` does what `open()` does; none of the three changes the page. -/
theorem inert_menu_methods_raise (tb ov : Option Elem) (p : Page)
    (hnull : tb = none ∨ ov = none) :
    (MobileMenu.construct tb ov p).raised = false ∧
    (fresh tb ov p).2 =
      { p with console := p.console ++ ["MobileMenu: Required elements not found"] } ∧
    (fresh tb ov p).2.listeners = p.listeners ∧
    (fresh tb ov p).1.toggleButton = none ∧
    (fresh tb ov p).1.menuOverlay = none ∧
    (fresh tb ov p).1.isOpen = none ∧
    (∀ ev, MobileMenu.handleKeyboard (fresh tb ov p).1 (fresh tb ov p).2 ev =
      ⟨(fresh tb ov p).1, (fresh tb ov p).2, false, false⟩) ∧
    (∀ ev, MobileMenu.handleFocusTrap (fresh tb ov p).1 (fresh tb ov p).2 ev =
      ⟨(fresh tb ov p).1, (fresh tb ov p).2, false, false⟩) ∧
    MobileMenu.open (fresh tb ov p).1 (fresh tb ov p).2 =
      ⟨⟨none, none, some true⟩, (fresh tb ov p).2, true, false⟩ ∧
    MobileMenu.close (fresh tb ov p).1 (fresh tb ov p).2 =
      ⟨⟨none, none, some false⟩, (fresh tb ov p).2, true, false⟩ ∧
    MobileMenu.toggle (fresh tb ov p).1 (fresh tb ov p).2 =
      ⟨⟨none, none, some true⟩, (fresh tb ov p).2, true, false⟩ := by
  have hc : MobileMenu.construct tb ov p =
      ⟨⟨none, none, none⟩,
        { p with console := p.console ++ ["MobileMenu: Required elements not found"] },
        false, false⟩ := by
    rcases hnull with h | h <;> subst h
    · rfl
    · cases tb <;> rfl
  simp [fresh, hc, MobileMenu.open, MobileMenu.close, MobileMenu.toggle,
    MobileMenu.handleKeyboard, MobileMenu.handleFocusTrap, truthy]

theorem inert_menu_methods_raise_witness :
    ((none : Option Elem) = none ∨ some 2 = none) ∧
    (fresh none (some 2) (blankPage [])).2.listeners = [] ∧
    MobileMenu.open (fresh none (some 2) (blankPage [])).1 (fresh none (some 2) (blankPage [])).2 =
      ⟨⟨none, none, some true⟩, (fresh none (some 2) (blankPage [])).2, true, false⟩ ∧
    MobileMenu.close (fresh none (some 2) (blankPage [])).1 (fresh none (some 2) (blankPage [])).2 =
      ⟨⟨none, none, some false⟩, (fresh none (some 2) (blankPage [])).2, true, false⟩ :=
  ⟨Or.inl rfl,
    (inert_menu_methods_raise none (some 2) (blankPage []) (Or.inl rfl)).2.2.1,
    (inert_menu_methods_raise none (some 2) (blankPage []) (Or.inl rfl)).2.2.2.2.2.2.2.2.1,
    (inert_menu_methods_raise none (some 2) (blankPage []) (Or.inl rfl)).2.2.2.2.2.2.2.2.2.1⟩

/-! ## Menu: focus trap -/

theorem nodeAt_zero (l : List Elem) : nodeAt l 0 = l.head? := by
  cases l <;> simp [nodeAt]

theorem nodeAt_last (l : List Elem) : nodeAt l ((l.length : Int) - 1) = l.getLast? := by
  cases l with
  | nil => simp [nodeAt]
  | cons a t =>
    have h : ((a :: t).length : Int) - 1 = (t.length : Int) := by simp
    rw [h]
    simp only [nodeAt]
    rw [if_neg (by omega)]
    simp [List.getLast?_eq_getElem?]

/-- C5: for a wired menu and any list of `.menu-link` elements.  While the menu is open:
Tab with focus on the last link calls `preventDefault` and focuses the first link;
Shift+Tab with focus on the first link calls `preventDefault` and focuses the last link;
and no keydown makes the handler raise, for any number of links (0 and 1 included) and
whatever holds focus.  While the menu is closed the handler changes nothing. -/
theorem handleFocusTrap_contract (m : MobileMenu) (p : Page) (ov : Elem)
    (hov : m.menuOverlay = some ov) :
    (truthy m.isOpen = true →
      (∀ l, p.menuLinks.getLast? = some l → p.activeElement = some l →
        ∃ f, p.menuLinks.head? = some f ∧
          m.handleFocusTrap p ⟨"Tab", false⟩ = ⟨m, p.focus f, false, true⟩) ∧
      (∀ f, p.menuLinks.head? = some f → p.activeElement = some f →
        ∃ l, p.menuLinks.getLast? = some l ∧
          m.handleFocusTrap p ⟨"Tab", true⟩ = ⟨m, p.focus l, false, true⟩) ∧
      (∀ ev, (m.handleFocusTrap p ev).raised = false)) ∧
    (truthy m.isOpen = false → ∀ ev, m.handleFocusTrap p ev = ⟨m, p, false, false⟩) := by
  refine ⟨fun ho => ⟨?_, ?_, ?_⟩, fun hc ev => ?_⟩
  · intro l hl ha
    cases hlinks : p.menuLinks with
    | nil => simp [hlinks] at hl
    | cons f t =>
      refine ⟨f, rfl, ?_⟩
      simp only [MobileMenu.handleFocusTrap, ho, hov, nodeAt_zero, nodeAt_last, hl, ha]
      simp [hlinks, strictEq]
  · intro f hf ha
    cases hlinks : p.menuLinks with
    | nil => simp [hlinks] at hf
    | cons f' t =>
      rw [hlinks] at hf
      simp only [List.head?_cons, Option.some.injEq] at hf
      subst hf
      refine ⟨(f' :: t).getLast (by simp), List.getLast?_eq_getLast _ _, ?_⟩
      simp only [MobileMenu.handleFocusTrap, ho, hov, nodeAt_zero, nodeAt_last, ha]
      simp [hlinks, strictEq, List.getLast?_eq_getLast]
  · intro ev
    simp only [MobileMenu.handleFocusTrap, ho, hov, nodeAt_zero, nodeAt_last]
    cases hlinks : p.menuLinks with
    | nil =>
      cases p.activeElement <;> simp [strictEq]
    | cons f t =>
      have hlast : (f :: t).getLast? = some ((f :: t).getLast (by simp)) :=
        List.getLast?_eq_getLast _ _
      rw [hlast]
      simp
      repeat (first | split | rfl)
  · simp [MobileMenu.handleFocusTrap, hc]

theorem handleFocusTrap_contract_witness :
    (⟨some 1, some 2, some true⟩ : MobileMenu).menuOverlay = some 2 ∧
    ((truthy (⟨some 1, some 2, some true⟩ : MobileMenu).isOpen = true →
      (∀ l, (Page.focus (blankPage [3, 4, 5]) 5).menuLinks.getLast? = some l →
          (Page.focus (blankPage [3, 4, 5]) 5).activeElement = some l →
        ∃ f, (Page.focus (blankPage [3, 4, 5]) 5).menuLinks.head? = some f ∧
          MobileMenu.handleFocusTrap ⟨some 1, some 2, some true⟩
              (Page.focus (blankPage [3, 4, 5]) 5) ⟨"Tab", false⟩ =
            ⟨⟨some 1, some 2, some true⟩, Page.focus (Page.focus (blankPage [3, 4, 5]) 5) f,
              false, true⟩) ∧
      (∀ f, (Page.focus (blankPage [3, 4, 5]) 5).menuLinks.head? = some f →
          (Page.focus (blankPage [3, 4, 5]) 5).activeElement = some f →
        ∃ l, (Page.focus (blankPage [3, 4, 5]) 5).menuLinks.getLast? = some l ∧
          MobileMenu.handleFocusTrap ⟨some 1, some 2, some true⟩
              (Page.focus (blankPage [3, 4, 5]) 5) ⟨"Tab", true⟩ =
            ⟨⟨some 1, some 2, some true⟩, Page.focus (Page.focus (blankPage [3, 4, 5]) 5) l,
              false, true⟩) ∧
      (∀ ev, (MobileMenu.handleFocusTrap ⟨some 1, some 2, some true⟩
          (Page.focus (blankPage [3, 4, 5]) 5) ev).raised = false)) ∧
    (truthy (⟨some 1, some 2, some true⟩ : MobileMenu).isOpen = false →
      ∀ ev, MobileMenu.handleFocusTrap ⟨some 1, some 2, some true⟩
          (Page.focus (blankPage [3, 4, 5]) 5) ev =
        ⟨⟨some 1, some 2, some true⟩, Page.focus (blankPage [3, 4, 5]) 5, false, false⟩)) :=
  ⟨rfl, handleFocusTrap_contract ⟨some 1, some 2, some true⟩
    (Page.focus (blankPage [3, 4, 5]) 5) 2 rfl⟩

/-! ## Menu: refinement of the two-state machine -/

theorem runEvents_snoc (s : MobileMenu × Page) (evs : List MenuEvent) (e : MenuEvent) :
    runEvents s (evs ++ [e]) = step (runEvents s evs) e := by
  simp [runEvents, List.foldl_append]

theorem step_phase {tb ov : Elem} {s : MobileMenu × Page} (h : Wired tb ov s) (e : MenuEvent) :
    phase (step s e).1 = specStep (phase s.1) e := by
  obtain ⟨⟨t, o, i⟩, p⟩ := s
  obtain ⟨h1, h2, hl⟩ := h
  simp only at h1 h2 hl
  subst h1 h2
  rcases i with _ | _ | _ <;> cases e <;>
    simp only [step, dispatch_toggleButtonClick _ _ hl, dispatch_escapeKeydown _ _ _ hl,
      dispatch_menuLinkClick _ _ hl, dispatch_focusTimer_menu] <;>
    simp [phase, specStep, dispatch, truthy, MobileMenu.open, MobileMenu.close,
      MobileMenu.toggle, MobileMenu.handleKeyboard]

theorem step_toggle_isOpen {tb ov : Elem} {s : MobileMenu × Page} (h : Wired tb ov s)
    (b : Bool) (hb : s.1.isOpen = some b) : (step s .callToggle).1.isOpen = some (!b) := by
  obtain ⟨⟨t, o, i⟩, p⟩ := s
  obtain ⟨h1, h2, _⟩ := h
  simp only at h1 h2 hb
  subst h1 h2 hb
  cases b <;>
    simp [step, dispatch, truthy, MobileMenu.open, MobileMenu.close, MobileMenu.toggle]

theorem toggles_isOpen (tb ov : Elem) (p : Page) (n : Nat) :
    (runEvents (fresh (some tb) (some ov) p) (List.replicate n .callToggle)).1.isOpen =
      some (decide (n % 2 = 1)) := by
  induction n with
  | zero => simp [runEvents, fresh_isOpen]
  | succ k ih =>
    rw [List.replicate_succ', runEvents_snoc,
      step_toggle_isOpen (runEvents_wired _ (fresh_wired tb ov p)) _ ih]
    congr 1
    rcases Nat.mod_two_eq_zero_or_one k with h | h <;> simp [h, Nat.succ_mod_two_eq_one_iff]

theorem step_escape_open {tb ov : Elem} {s : MobileMenu × Page} (h : Wired tb ov s)
    (ho : s.1.isOpen = some true) (inside : Bool) :
    (step s (.escapeKeydown inside)).1.isOpen = some false ∧
      ClosedConfig tb ov (step s (.escapeKeydown inside)).2 ∧
      (step s (.escapeKeydown inside)).2.activeElement =
        if s.2.focusable tb then some tb else s.2.activeElement := by
  obtain ⟨⟨t, o, i⟩, p⟩ := s
  obtain ⟨h1, h2, hl⟩ := h
  simp only at h1 h2 ho hl
  subst h1 h2 ho
  have hc := close_wired tb ov (some true) p
  have hk : MobileMenu.handleKeyboard ⟨some tb, some ov, some true⟩ p ⟨"Escape", false⟩ =
      MobileMenu.close ⟨some tb, some ov, some true⟩ p := by
    simp [MobileMenu.handleKeyboard, truthy, MobileMenu.close]
  simp only [step, dispatch_escapeKeydown _ _ _ hl, hk]
  refine ⟨by rw [hc.1], hc.2.2, ?_⟩
  simp [MobileMenu.close, focus_activeElement, Page.setAttribute]

theorem dispatch_escape_closed (m : MobileMenu) (p : Page) (hl : Listening p)
    (hc : m.isOpen ≠ some true) (inside : Bool) :
    dispatch m p (.escapeKeydown inside) = ⟨m, p, false, false⟩ := by
  rw [dispatch_escapeKeydown _ _ _ hl]
  obtain ⟨t, o, i⟩ := m
  rcases i with _ | _ | _ <;> simp_all [truthy, MobileMenu.handleKeyboard]

/-- C8: the `isOpen` flag of a freshly constructed menu refines the two-state machine.
Construction registers the four listeners through which the DOM events reach the
handlers, and the menu starts Closed.  Every event moves the flag as `specStep` says
(`open()` and `toggle()` from Closed lead to Open; `close()`, `toggle()` from Open, an
Escape keydown and a menu-link click lead to Closed).  After `n` calls of `toggle()` alone
`isOpen` is true iff `n` is odd.  An Escape keydown on an open menu closes it: closed
flag, closed ARIA attributes, scroll lock released, and `focus()` called on the toggle
button, which takes the focus if it is focusable.  On a menu that is not open an Escape
keydown changes neither the instance nor the page. -/
theorem menu_refines_two_state_machine (tb ov : Elem) (p : Page) :
    Listening (fresh (some tb) (some ov) p).2 ∧
    phase (fresh (some tb) (some ov) p).1 = .Closed ∧
    (∀ evs e, phase (runEvents (fresh (some tb) (some ov) p) (evs ++ [e])).1 =
      specStep (phase (runEvents (fresh (some tb) (some ov) p) evs).1) e) ∧
    (∀ n, (runEvents (fresh (some tb) (some ov) p) (List.replicate n .callToggle)).1.isOpen =
      some (decide (n % 2 = 1))) ∧
    (∀ evs inside,
      ((runEvents (fresh (some tb) (some ov) p) evs).1.isOpen = some true →
        (step (runEvents (fresh (some tb) (some ov) p) evs) (.escapeKeydown inside)).1.isOpen =
          some false ∧
        ClosedConfig tb ov
          (step (runEvents (fresh (some tb) (some ov) p) evs) (.escapeKeydown inside)).2 ∧
        (step (runEvents (fresh (some tb) (some ov) p) evs) (.escapeKeydown inside)).2.activeElement =
          if (runEvents (fresh (some tb) (some ov) p) evs).2.focusable tb then some tb
          else (runEvents (fresh (some tb) (some ov) p) evs).2.activeElement) ∧
      ((runEvents (fresh (some tb) (some ov) p) evs).1.isOpen ≠ some true →
        dispatch (runEvents (fresh (some tb) (some ov) p) evs).1
            (runEvents (fresh (some tb) (some ov) p) evs).2 (.escapeKeydown inside) =
          ⟨(runEvents (fresh (some tb) (some ov) p) evs).1,
            (runEvents (fresh (some tb) (some ov) p) evs).2, false, false⟩)) := by
  refine ⟨(fresh_wired tb ov p).2.2, ?_, ?_, toggles_isOpen tb ov p, fun evs inside => ⟨?_, ?_⟩⟩
  · simp [phase, fresh_isOpen, truthy]
  · intro evs e
    rw [runEvents_snoc]
    exact step_phase (runEvents_wired evs (fresh_wired tb ov p)) e
  · exact fun ho => step_escape_open (runEvents_wired evs (fresh_wired tb ov p)) ho inside
  · exact fun hc =>
      dispatch_escape_closed _ _ (runEvents_wired evs (fresh_wired tb ov p)).2.2 hc inside

/-! ## Touch handler: double-tap suppression -/

/-- C4, as stated, fails in two places.  At a gap of exactly 300 ms: on a freshly wired
element, of two `touchend` events at `Date.now()` readings 1000 and 1300 the second has
its default cancelled, because the listener tests `now - lastTouchEnd <= 300`.  And for
the first event of a pair: after a `touchend` at 1000, of the consecutive events at 1100
and 1200 the first has its default cancelled as well, being itself within 300 ms of the
event before it. -/
theorem doubleTap_gap_of_300_is_cancelled :
    ¬ ((preventDoubleTapZoom.pair preventDoubleTapZoom.wired 1000 1300).1 = false ∧
        ((1300 : Int) - 1000 < 300 →
          (preventDoubleTapZoom.pair preventDoubleTapZoom.wired 1000 1300).2 = true) ∧
        ((300 : Int) ≤ 1300 - 1000 →
          (preventDoubleTapZoom.pair preventDoubleTapZoom.wired 1000 1300).1 = false ∧
          (preventDoubleTapZoom.pair preventDoubleTapZoom.wired 1000 1300).2 = false)) ∧
    ¬ ((preventDoubleTapZoom.pair
          (preventDoubleTapZoom.touchend preventDoubleTapZoom.wired 1000).1 1100 1200).1 = false ∧
        ((1200 : Int) - 1100 < 300 →
          (preventDoubleTapZoom.pair
            (preventDoubleTapZoom.touchend preventDoubleTapZoom.wired 1000).1 1100 1200).2 = true) ∧
        ((300 : Int) ≤ 1200 - 1100 →
          (preventDoubleTapZoom.pair
            (preventDoubleTapZoom.touchend preventDoubleTapZoom.wired 1000).1 1100 1200).1 = false ∧
          (preventDoubleTapZoom.pair
            (preventDoubleTapZoom.touchend preventDoubleTapZoom.wired 1000).1 1100 1200).2 = false)) := by
  decide

/-- C4 (amended): for every two consecutive `touchend` events on one wired element, at
times `t1` and `t2`, whatever came before them: the second event's default is cancelled
iff `t2 - t1 <= 300`, a gap of exactly 300 ms included, so for `t2 - t1 > 300` it is not
cancelled; and the first event's default is cancelled iff the first event is itself at
most 300 ms after the time in `lastTouchEnd` (the previous `touchend`, or 0 on a freshly
wired element), so a first event that opens a new tap is not cancelled. -/
theorem doubleTap_cancelled_iff_within_300 (s : TapState) (t1 t2 : Int) :
    ((preventDoubleTapZoom.pair s t1 t2).2 = true ↔ t2 - t1 ≤ 300) ∧
    ((preventDoubleTapZoom.pair s t1 t2).2 = false ↔ 300 < t2 - t1) ∧
    ((preventDoubleTapZoom.pair s t1 t2).1 = true ↔ t1 - s.lastTouchEnd ≤ 300) ∧
    ((preventDoubleTapZoom.pair s t1 t2).1 = false ↔ 300 < t1 - s.lastTouchEnd) := by
  refine ⟨?_, ?_, ?_, ?_⟩ <;>
    simp only [preventDoubleTapZoom.pair, preventDoubleTapZoom.touchend, decide_eq_true_eq,
      decide_eq_false_iff_not] <;>
    omega

theorem doubleTap_cancelled_iff_within_300_witness :
    preventDoubleTapZoom.pair preventDoubleTapZoom.wired 1000 1300 = (false, true) ∧
    preventDoubleTapZoom.pair preventDoubleTapZoom.wired 1000 1301 = (false, false) ∧
    preventDoubleTapZoom.pair (preventDoubleTapZoom.touchend preventDoubleTapZoom.wired 1000).1
      1100 1200 = (true, true) := by
  have h1 := doubleTap_cancelled_iff_within_300 preventDoubleTapZoom.wired 1000 1300
  have h2 := doubleTap_cancelled_iff_within_300 preventDoubleTapZoom.wired 1000 1301
  have h3 := doubleTap_cancelled_iff_within_300
    (preventDoubleTapZoom.touchend preventDoubleTapZoom.wired 1000).1 1100 1200
  refine ⟨Prod.ext (h1.2.2.2.mpr (by decide)) (h1.1.mpr (by decide)),
    Prod.ext (h2.2.2.2.mpr (by decide)) (h2.2.1.mpr (by decide)),
    Prod.ext (h3.2.2.1.mpr (by decide)) (h3.1.mpr (by decide))⟩

/-! ## Scroll reveal -/

theorem mem_classListAdd (cl : List String) (c x : String) :
    x ∈ classListAdd cl c ↔ x ∈ cl ∨ x = c := by
  unfold classListAdd
  split
  · constructor
    · exact Or.inl
    · rintro (h | h)
      · exact h
      · subst h; assumption
  · simp

theorem mem_animateIn (dom : ClassLists) (x e : Elem) (c : String) :
    c ∈ ScrollReveal.animateIn dom x e ↔ c ∈ dom e ∨ (c = "active" ∧ x = e) := by
  unfold ScrollReveal.animateIn
  split
  · rename_i h
    simp [mem_classListAdd, h]
  · rename_i h
    have h' : ¬ x = e := fun hx => h hx.symm
    simp [h']

theorem mem_handleIntersection (entries : List IntersectionEntry) (dom : ClassLists) (e : Elem)
    (c : String) :
    c ∈ ScrollReveal.handleIntersection dom entries e ↔
      c ∈ dom e ∨ (c = "active" ∧ ∃ en ∈ entries, en.isIntersecting = true ∧ en.target = e) := by
  induction entries generalizing dom with
  | nil => simp [ScrollReveal.handleIntersection]
  | cons en rest ih =>
    have hstep : ScrollReveal.handleIntersection dom (en :: rest) =
        ScrollReveal.handleIntersection
          (if en.isIntersecting then ScrollReveal.animateIn dom en.target else dom) rest := rfl
    rw [hstep, ih]
    cases hi : en.isIntersecting
    · simp [hi]
    · simp only [if_true, mem_animateIn, List.mem_cons, exists_eq_or_imp, hi, true_and]
      tauto

theorem animateIn_of_active (dom : ClassLists) (x : Elem) (h : "active" ∈ dom x) :
    ScrollReveal.animateIn dom x = dom := by
  funext e
  unfold ScrollReveal.animateIn classListAdd
  split
  · rename_i he
    subst he
    simp [h]
  · rfl

/-- C9: after `handleIntersection(entries)` an element is `active` iff it was before or is
the target of an entry of the batch whose `isIntersecting` is true, and no other class of
any element changes; `animateIn` never takes `active` away and changes nothing on an
element that is already `active`; `animateOut(element)` is what removes `active`. -/
theorem reveal_is_sticky (dom : ClassLists) (entries : List IntersectionEntry) :
    (∀ e, "active" ∈ ScrollReveal.handleIntersection dom entries e ↔
      ("active" ∈ dom e ∨ ∃ en ∈ entries, en.isIntersecting = true ∧ en.target = e)) ∧
    (∀ e c, c ≠ "active" → (c ∈ ScrollReveal.handleIntersection dom entries e ↔ c ∈ dom e)) ∧
    (∀ x e, "active" ∈ dom e → "active" ∈ ScrollReveal.animateIn dom x e) ∧
    (∀ x, "active" ∈ dom x → ScrollReveal.animateIn dom x = dom) ∧
    (∀ x, "active" ∉ ScrollReveal.animateOut dom x x) := by
  refine ⟨fun e => ?_, fun e c hc => ?_, fun x e h => ?_, fun x h => ?_, fun x => ?_⟩
  · simp [mem_handleIntersection]
  · simp [mem_handleIntersection, hc]
  · exact (mem_animateIn dom x e "active").mpr (Or.inl h)
  · exact animateIn_of_active dom x h
  · simp [ScrollReveal.animateOut, classListRemove]

theorem reveal_is_sticky_witness :
    "active" ∈ ScrollReveal.handleIntersection sampleClasses [⟨1, true⟩, ⟨3, false⟩] 1 ∧
    "active" ∈ ScrollReveal.handleIntersection sampleClasses [⟨1, true⟩, ⟨3, false⟩] 2 ∧
    "active" ∉ ScrollReveal.handleIntersection sampleClasses [⟨1, true⟩, ⟨3, false⟩] 3 :=
  ⟨((reveal_is_sticky sampleClasses [⟨1, true⟩, ⟨3, false⟩]).1 1).mpr
      (Or.inr ⟨⟨1, true⟩, by simp, rfl, rfl⟩),
    ((reveal_is_sticky sampleClasses [⟨1, true⟩, ⟨3, false⟩]).1 2).mpr (Or.inl (by decide)),
    by decide⟩

/-! ## Smooth scrolling -/

theorem hash_append_ne_hash (id : String) (h : id ≠ "") : "#" ++ id ≠ "#" := by
  intro hc
  apply h
  have hd := congrArg String.data hc
  simp only [String.data_append] at hd
  have hnil : id.data = [] := by simpa using hd
  exact String.ext hnil

theorem hash_append_drop (id : String) : ("#" ++ id).drop 1 = id := by
  rw [String.drop_eq]
  apply String.ext
  simp

theorem headerHeightOrZero_some (h : Nat) : headerHeightOrZero (some h) = h := by
  unfold headerHeightOrZero
  split <;> simp_all

/-- C10: a click on an anchor whose href is `#` followed by a non-empty id of an existing
element calls `preventDefault` and issues exactly one `window.scrollTo` call, with
behavior `smooth` and top equal to the target's `offsetTop` minus the `offsetHeight` of
`.site-header` read at click time (minus 0 without a `.site-header`); a click on an anchor
whose href is exactly `#` calls `preventDefault` and issues no scroll call. -/
theorem smoothScroll_click (doc : Document) :
    (∀ (id : String) (offsetTop : Int), id ≠ "" → doc.getElementById id = some offsetTop →
      initializeSmoothScroll.click doc ("#" ++ id) =
        ⟨true, [⟨offsetTop - (match doc.siteHeader with
                              | some offsetHeight => (offsetHeight : Int)
                              | none => 0), "smooth"⟩]⟩) ∧
    initializeSmoothScroll.click doc "#" = ⟨true, []⟩ := by
  refine ⟨fun id offsetTop hid hget => ?_, by simp [initializeSmoothScroll.click]⟩
  simp only [initializeSmoothScroll.click, if_neg (hash_append_ne_hash id hid), hash_append_drop,
    hget]
  cases doc.siteHeader with
  | none => simp [headerHeightOrZero]
  | some h => simp [headerHeightOrZero_some]

theorem smoothScroll_click_witness :
    initializeSmoothScroll.click sampleDocument ("#" ++ "section1") =
      ⟨true, [⟨436, "smooth"⟩]⟩ :=
  (smoothScroll_click sampleDocument).1 "section1" 500 (by decide) (by decide)

/-! ## Timers, `debounce` -/

theorem isDue_false_iff {κ : Type} (now : Nat) (tf : Bool) (t : Timer κ) (h : now < t.due) :
    isDue now tf t = false := by
  simp only [isDue, Bool.or_eq_false_iff, decide_eq_false_iff_not, Bool.and_eq_false_imp,
    beq_eq_false_iff_ne, ne_eq]
  omega

theorem runTimers_not_due {σ κ : Type} (fire : Timer κ → Host σ κ → Host σ κ) (v : σ)
    (t : Timer κ) (n now : Nat) (tf : Bool) (h : isDue now tf t = false) :
    runTimers fire ⟨v, [t], n⟩ now tf = ⟨v, [t], n⟩ := by
  simp [runTimers, h, sortByDue]

theorem runTimers_due {σ κ : Type} (fire : Timer κ → Host σ κ → Host σ κ) (v : σ)
    (t : Timer κ) (n now : Nat) (tf : Bool) (h : isDue now tf t = true) :
    runTimers fire ⟨v, [t], n⟩ now tf = fire t ⟨v, [], n⟩ := by
  simp [runTimers, h, sortByDue, insertByDue]

theorem runTimers_idle {σ κ : Type} (fire : Timer κ → Host σ κ → Host σ κ) (v : σ)
    (n now : Nat) (tf : Bool) :
    runTimers fire ⟨v, [], n⟩ now tf = ⟨v, [], n⟩ := by
  simp [runTimers, sortByDue]

theorem debounce_call_pending {α : Type} (wait : Nat) (R : List (Nat × α)) (t : Timer α)
    (n now : Nat) (args : α) :
    debounce.executedFunction wait ⟨⟨some t.id, R⟩, [t], n⟩ now args =
      ⟨⟨some n, R⟩, [⟨n, now + wait, args⟩], n + 1⟩ := by
  simp [debounce.executedFunction, clearTimeout, setTimeout]

theorem debounce_call_init {α : Type} (wait now : Nat) (args : α) :
    debounce.executedFunction wait debounce.init now args =
      ⟨⟨some 0, []⟩, [⟨0, now + wait, args⟩], 1⟩ := by
  simp [debounce.executedFunction, debounce.init, clearTimeout, setTimeout]

theorem debounce_burst_state {α : Type} (wait : Nat) (tf : Nat → Bool) (cs : List (Nat × α))
    (c : Nat × α) (id n : Nat) (R : List (Nat × α))
    (hburst : isBurst wait (c :: cs) = true) :
    ∃ id' n', cs.foldl
        (fun h c => debounce.executedFunction wait
          (runTimers debounce.later h c.1 (tf c.1)) c.1 c.2)
        ⟨⟨some id, R⟩, [⟨id, c.1 + wait, c.2⟩], n⟩ =
      ⟨⟨some id', R⟩,
        [⟨id', ((c :: cs).getLast (List.cons_ne_nil c cs)).1 + wait,
          ((c :: cs).getLast (List.cons_ne_nil c cs)).2⟩], n'⟩ := by
  induction cs generalizing c id n with
  | nil => exact ⟨id, n, rfl⟩
  | cons d ds ih =>
    simp only [isBurst, Bool.and_eq_true, decide_eq_true_eq] at hburst
    obtain ⟨hcd, hrest⟩ := hburst
    have hnd : isDue d.1 (tf d.1) (⟨id, c.1 + wait, c.2⟩ : Timer α) = false :=
      isDue_false_iff _ _ _ (by simp only; omega)
    obtain ⟨id', n', h⟩ := ih d n (n + 1) hrest
    refine ⟨id', n', ?_⟩
    rw [List.foldl_cons, runTimers_not_due _ _ _ _ _ _ hnd]
    have := debounce_call_pending wait R (⟨id, c.1 + wait, c.2⟩ : Timer α) n d.1 d.2
    simp only at this
    rw [this, h]
    simp [List.getLast_cons]

theorem isDue_at_horizon {κ : Type} (horizon : Nat) (t : Timer κ) :
    isDue horizon true t = decide (t.due ≤ horizon) := by
  simp only [isDue, Bool.true_and]
  rcases Nat.lt_trichotomy t.due horizon with h | h | h
  · simp [h, Nat.le_of_lt h]
  · simp [h]
  · have h1 : ¬ t.due ≤ horizon := by omega
    have h2 : ¬ t.due < horizon := by omega
    have h3 : ¬ t.due = horizon := by omega
    simp [h1, h2, h3]

/-- C6: for every wait and every burst of one or more calls of the debounced wrapper, in
time order and each less than `wait` after the one before, with no later call, `func` runs
exactly once, at the time of the last call plus `wait` and with the last call's arguments:
up to any earlier time it has not run at all.  This holds whichever of a timer and a call
that fall on the same instant is run first. -/
theorem debounce_burst_runs_once {α : Type} (wait : Nat) (timersFirst : Nat → Bool)
    (c : Nat × α) (cs : List (Nat × α))
    (hburst : isBurst wait (c :: cs) = true) (horizon : Nat) :
    debounce.runsUpTo wait timersFirst (c :: cs) horizon =
      if ((c :: cs).getLast (List.cons_ne_nil c cs)).1 + wait ≤ horizon then
        [(((c :: cs).getLast (List.cons_ne_nil c cs)).1 + wait,
          ((c :: cs).getLast (List.cons_ne_nil c cs)).2)]
      else [] := by
  obtain ⟨id', n', h⟩ := debounce_burst_state wait timersFirst cs c 0 1 [] hburst
  simp only [debounce.runsUpTo, debounce.afterCalls, List.foldl_cons]
  rw [show runTimers debounce.later (debounce.init : Host (DebounceVars α) α) c.1
      (timersFirst c.1) = debounce.init from runTimers_idle _ _ _ _ _, debounce_call_init, h]
  split
  · rename_i hle
    rw [runTimers_due _ _ _ _ _ _ (by rw [isDue_at_horizon]; simpa using hle)]
    simp [debounce.later, clearTimeout]
  · rename_i hle
    rw [runTimers_not_due _ _ _ _ _ _ (by rw [isDue_at_horizon]; simpa using hle)]

theorem debounce_burst_runs_once_witness :
    isBurst 100 [(0, ()), (10, ()), (20, ()), (30, ()), (50, ())] = true ∧
      debounce.runsUpTo 100 (fun _ => true) [(0, ()), (10, ()), (20, ()), (30, ()), (50, ())] 1000
        = [(150, ())] ∧
      debounce.runsUpTo 100 (fun _ => true) [(0, ()), (10, ()), (20, ()), (30, ()), (50, ())] 149
        = [] :=
  ⟨by decide,
    by simpa using debounce_burst_runs_once 100 (fun _ => true) (0, ())
        [(10, ()), (20, ()), (30, ()), (50, ())] (by decide) 1000,
    by decide⟩

/-! ## `throttle` -/

/-- One call of a throttled wrapper while its gate is closed and its reset timer pending. -/
theorem throttle_step (limit : Nat) (R : List Nat) (t : Timer Unit) (n now : Nat) (tf : Bool) :
    throttle.executedFunction limit
        (runTimers throttle.reset ⟨⟨some true, R⟩, [t], n⟩ now tf) now =
      if isDue now tf t then ⟨⟨some true, R ++ [now]⟩, [⟨n, now + limit, ()⟩], n + 1⟩
      else ⟨⟨some true, R⟩, [t], n⟩ := by
  cases h : isDue now tf t
  · rw [runTimers_not_due _ _ _ _ _ _ h]
    simp [throttle.executedFunction, truthy]
  · rw [runTimers_due _ _ _ _ _ _ h]
    simp [throttle.executedFunction, throttle.reset, truthy, setTimeout]

theorem throttle_first_call (limit now : Nat) (tf : Bool) :
    throttle.executedFunction limit (runTimers throttle.reset throttle.init now tf) now =
      ⟨⟨some true, [now]⟩, [⟨0, now + limit, ()⟩], 1⟩ := by
  rw [show runTimers throttle.reset throttle.init now tf = throttle.init from
    runTimers_idle _ _ _ _ _]
  simp [throttle.executedFunction, throttle.init, truthy, setTimeout]

theorem afterCalls_range_succ (tf : Nat → Bool) (k : Nat) :
    throttle.afterCalls 100 tf ((List.range (k + 1)).map (fun i => 10 * i)) =
      throttle.executedFunction 100
        (runTimers throttle.reset
          (throttle.afterCalls 100 tf ((List.range k).map (fun i => 10 * i)))
          (10 * k) (tf (10 * k))) (10 * k) := by
  simp [throttle.afterCalls, List.range_succ, List.foldl_append]

theorem throttleInv_prefix (tf : Nat → Bool) (k : Nat) :
    ThrottleInv k (throttle.afterCalls 100 tf ((List.range (k + 1)).map (fun i => 10 * i))) := by
  induction k with
  | zero =>
    refine ⟨0, 1, 0, [], ?_, by simp, by simp, by simp, by simp, by simp, by simp⟩
    have hr : (List.range (0 + 1)).map (fun i => 10 * i) = [0] := rfl
    rw [hr]
    simp only [throttle.afterCalls, List.foldl_cons, List.foldl_nil]
    exact throttle_first_call 100 0 _
  | succ k ih =>
    obtain ⟨id, n, r, R, hs, h1, h2, h3, h4, h5, h6⟩ := ih
    rw [afterCalls_range_succ, hs, throttle_step]
    split
    · rename_i hdue
      have hle : r + 100 ≤ 10 * (k + 1) := by
        simp only [isDue, Bool.or_eq_true, decide_eq_true_eq, Bool.and_eq_true, beq_iff_eq]
          at hdue
        omega
      refine ⟨n, n + 1, 10 * (k + 1), R ++ [r], rfl, le_refl _, by omega, ?_, ?_, ?_, ?_⟩
      · simp only [List.length_append, List.length_singleton]; omega
      · simp only [List.length_append, List.length_singleton]; omega
      · rw [List.head?_append_of_ne_nil _ (by simp)]; exact h5
      · refine List.Chain'.append h6 (by simp) ?_
        intro x hx y hy
        simp at hx hy
        omega
    · rename_i hdue
      have hle : 10 * (k + 1) ≤ r + 100 := by
        simp only [isDue, Bool.or_eq_true, decide_eq_true_eq, Bool.and_eq_true, beq_iff_eq,
          not_or, not_and, not_lt] at hdue
        omega
      exact ⟨id, n, r, R, rfl, by omega, hle, h3, h4, h5, h6⟩

/-- C7: the wrapper `throttle(func, 100)` called at times 0, 10, ..., 490 runs `func`
exactly 5 times; the first run is at time 0, inside the first call (no timer has run);
and any two consecutive runs are at least 100 ms apart.  This holds whichever of a
gate-reset timer and a wrapper call that fall on the same instant is run first. -/
theorem throttle_every_10ms_runs_5_times (timersFirst : Nat → Bool) :
    (throttle.afterCalls 100 timersFirst everyTenMs).vars.runs.length = 5 ∧
    (throttle.executedFunction 100 throttle.init 0).vars.runs = [0] ∧
    (throttle.afterCalls 100 timersFirst everyTenMs).vars.runs.head? = some 0 ∧
    List.Chain' (fun a b => a + 100 ≤ b)
      (throttle.afterCalls 100 timersFirst everyTenMs).vars.runs := by
  obtain ⟨id, n, r, R, hs, h1, h2, h3, h4, h5, h6⟩ := throttleInv_prefix timersFirst 49
  have he : everyTenMs = (List.range (49 + 1)).map (fun i => 10 * i) := rfl
  rw [he, hs]
  refine ⟨?_, by decide, h5, h6⟩
  simp only [List.length_append, List.length_singleton]
  omega

end Savign
